import Mathlib

/-!
Shallow embedding of the sensor-data-logger ring buffer (`buffer.h` /
`buffer.c`).

Modelling conventions:

* C pointers to the storage region (`head`, `tail`) are modelled as `Nat`
  indices into the storage list; the pointer advance `p++; if (p >= buffer +
  capacity) p = buffer;` becomes `let p1 := p + 1; if capacity ≤ p1 then 0
  else p1`.
* A possibly-NULL C pointer argument is an `Option`; `none` is `NULL`.
  The caller-supplied `output` pointer of `buffer_read` / `buffer_peek`
  is only ever written through, so it is modelled by a Boolean
  `output_null` flag plus an `Option sensor_reading_t` result
  (the value stored through the pointer, `none` when nothing is stored).
* The `float value` field of `sensor_reading_t` is only ever copied, never
  computed with, so it is modelled by its 32-bit pattern as a `Nat`.
* `malloc` failure paths return NULL in the source; allocation is modelled
  as succeeding (the claims are about the buffer a successful
  `buffer_create` yields).
* `buffer_write` has no `return` statement on its success path (the C
  function falls off the end of a `bool` function), so its return value
  there is unspecified; the modelled return value is `Option Bool`, with
  `none` for the unspecified value.
-/

/-- `sensor_reading_t` from `buffer.h`: `uint32_t timestamp`,
`uint8_t sensor_id`, `float value` (the float is only copied, never used
arithmetically, and is modelled by its bit pattern). -/
structure sensor_reading_t where
  timestamp : Nat
  sensor_id : Nat
  value : Nat
deriving DecidableEq

/-- `buffer_status_t` from `buffer.h`: bit-field flags `is_full`,
`is_empty`, `overflows` (1 bit each) and `reserved` (5 bits, always 0). -/
structure buffer_status_t where
  is_full : Bool
  is_empty : Bool
  overflows : Bool
  reserved : Nat
deriving DecidableEq

/-- `ring_buffer_t` from `buffer.h`.  The storage region `buffer` is a list;
`head` and `tail` are the write/read pointers as indices into it. -/
structure ring_buffer_t where
  buffer : List sensor_reading_t
  head : Nat
  tail : Nat
  capacity : Nat
  count : Nat
  status : buffer_status_t
deriving DecidableEq

/-- The all-zero reading produced by `memset(buf->buffer, 0, ...)`. -/
def zero_reading : sensor_reading_t := ⟨0, 0, 0⟩

/-- `buffer_create` from `buffer.c` (allocation modelled as succeeding):
allocates `capacity` slots, zeroes them, sets `head = tail = buffer`,
`count = 0`, `is_full = 0`, `is_empty = 1`, `overflows = 0`, `reserved = 0`. -/
def buffer_create (capacity : Nat) : ring_buffer_t :=
  { buffer := List.replicate capacity zero_reading
    head := 0
    tail := 0
    capacity := capacity
    count := 0
    status := { is_full := false, is_empty := true, overflows := false, reserved := 0 } }

/-- Body of `buffer_write` after the NULL checks: the new state and the C
return value (`none` on the success path, which has no `return` statement). -/
def write_step (b : ring_buffer_t) (r : sensor_reading_t) :
    ring_buffer_t × Option Bool :=
  if b.count = b.capacity then
    ({ b with status := { b.status with is_full := true, overflows := true } },
     some false)
  else
    let buf1 := b.buffer.set b.head r
    let h1 := b.head + 1
    let h2 := if b.capacity ≤ h1 then 0 else h1
    let c1 := b.count + 1
    ({ b with
        buffer := buf1
        head := h2
        count := c1
        status := { b.status with
                    is_empty := false
                    is_full := decide (c1 = b.capacity) } },
     none)

/-- `buffer_write` from `buffer.c`: NULL buffer or NULL reading returns
`false` with no effect; otherwise runs `write_step`. -/
def buffer_write (buf : Option ring_buffer_t) (reading : Option sensor_reading_t) :
    Option ring_buffer_t × Option Bool :=
  match buf, reading with
  | none, _ => (none, some false)
  | some b, none => (some b, some false)
  | some b, some r => (some (write_step b r).1, (write_step b r).2)

/-- Body of `buffer_read` after the NULL checks: the new state, the value
stored through `output` (if any), and the C return value. -/
def read_step (b : ring_buffer_t) :
    ring_buffer_t × Option sensor_reading_t × Bool :=
  if b.count = 0 then
    ({ b with status := { b.status with is_empty := true } }, none, false)
  else
    let out := b.buffer.getD b.tail zero_reading
    let t1 := b.tail + 1
    let t2 := if b.capacity ≤ t1 then 0 else t1
    let c1 := b.count - 1
    ({ b with
        tail := t2
        count := c1
        status := { b.status with
                    is_full := false
                    is_empty := decide (c1 = 0) } },
     some out, true)

/-- `buffer_read` from `buffer.c`: NULL buffer or NULL output returns
`false` with no effect; otherwise runs `read_step`. -/
def buffer_read (buf : Option ring_buffer_t) (output_null : Bool) :
    Option ring_buffer_t × Option sensor_reading_t × Bool :=
  match buf with
  | none => (none, none, false)
  | some b =>
    if output_null then (some b, none, false)
    else (some (read_step b).1, (read_step b).2)

/-- `buffer_is_empty` from `buffer.c`: `(buf == NULL) || (buf->count == 0)`. -/
def buffer_is_empty (buf : Option ring_buffer_t) : Bool :=
  match buf with
  | none => true
  | some b => decide (b.count = 0)

/-- `Buffer_is_full` from `buffer.c`: `(buf != NULL) & (buf->count == buf->capacity)`. -/
def Buffer_is_full (buf : Option ring_buffer_t) : Bool :=
  match buf with
  | none => false
  | some b => decide (b.count = b.capacity)

/-- `buffer_count` from `buffer.c`: `(buf == NULL) ? 0 : buf->count`. -/
def buffer_count (buf : Option ring_buffer_t) : Nat :=
  match buf with
  | none => 0
  | some b => b.count

/-- `buffer_clear` from `buffer.c`.  The guard is `if (buf = NULL) return;`:
a single `=` assigns NULL to the local `buf`, the condition evaluates to 0,
so the early return is never taken; the next statement
`buf->head = buf->buffer` then dereferences the null pointer for every
argument, NULL included.  The call therefore has no defined result; `none`
models the crash, and the `some` branch (the reset the remaining statements
would perform) is dead code, exactly as in the source. -/
def buffer_clear (buf : Option ring_buffer_t) : Option ring_buffer_t :=
  let buf : Option ring_buffer_t := none
  match buf with
  | none => none
  | some b =>
    some { b with
           head := 0
           tail := 0
           count := 0
           status := { is_full := false, is_empty := true, overflows := false,
                       reserved := b.status.reserved } }

/-- `buffer_peek` from `buffer.c`: fails when `buffer_is_empty(buf)` (also
for NULL `buf`) or `output == NULL`; otherwise copies `*buf->tail` without
advancing anything.  The result is the value stored through `output`
(`none` when the function returns false). -/
def buffer_peek (buf : Option ring_buffer_t) (output_null : Bool) :
    Option sensor_reading_t :=
  if buffer_is_empty buf || output_null then none
  else
    match buf with
    | none => none
    | some b => some (b.buffer.getD b.tail zero_reading)

/-- `buffer_get_status` from `buffer.c`: `{0}` for NULL, else `buf->status`. -/
def buffer_get_status (buf : Option ring_buffer_t) : buffer_status_t :=
  match buf with
  | none => { is_full := false, is_empty := false, overflows := false, reserved := 0 }
  | some b => b.status

/-!
Abstraction and invariant for the verification.

`toList b` is the sequence of currently-held readings, oldest first: the
`count` slots starting at `tail` and proceeding forward with wrap-around.
`buf_inv` is the representation invariant relating the cursors, the count
and the status flags; it holds in every state reachable through the public
operations.
-/

/-- The currently-held readings, oldest first. -/
def toList (b : ring_buffer_t) : List sensor_reading_t :=
  (List.range b.count).map
    (fun i => b.buffer.getD ((b.tail + i) % b.capacity) zero_reading)

/-- Representation invariant of `ring_buffer_t`. -/
def buf_inv (b : ring_buffer_t) : Prop :=
  1 ≤ b.capacity ∧
  b.buffer.length = b.capacity ∧
  b.count ≤ b.capacity ∧
  b.tail < b.capacity ∧
  b.head = (b.tail + b.count) % b.capacity ∧
  b.status.is_empty = decide (b.count = 0) ∧
  b.status.is_full = decide (b.count = b.capacity)

/-- One mutating public operation (queries and `buffer_peek` take a `const`
buffer and cannot change state; `buffer_clear` never returns, see
`buffer_clear`). -/
inductive BufOp where
  | write (r : sensor_reading_t)
  | read
deriving DecidableEq

/-- States reachable from construction (capacity ≥ 1) by the state-mutating
public operations. -/
inductive Reachable : ring_buffer_t → Prop where
  | create (c : Nat) (hc : 1 ≤ c) : Reachable (buffer_create c)
  | write (b : ring_buffer_t) (r : sensor_reading_t) :
      Reachable b → Reachable (write_step b r).1
  | read (b : ring_buffer_t) : Reachable b → Reachable (read_step b).1

/-- Run a sequence of mutating operations; the second component collects the
values delivered by the successful `buffer_read` calls, in order. -/
def run_trace (b : ring_buffer_t) :
    List BufOp → ring_buffer_t × List sensor_reading_t
  | [] => (b, [])
  | BufOp.write r :: ops => run_trace (write_step b r).1 ops
  | BufOp.read :: ops =>
    ((run_trace (read_step b).1 ops).1,
     (read_step b).2.1.toList ++ (run_trace (read_step b).1 ops).2)

/-- Specification model: a bounded FIFO queue, oldest element first.  A push
on a full queue is rejected. -/
def model_push (c : Nat) (q : List sensor_reading_t) (r : sensor_reading_t) :
    List sensor_reading_t :=
  if q.length = c then q else q ++ [r]

/-- Run a sequence of operations on the model queue; the second component
collects the elements delivered by the successful pops, in order. -/
def model_trace (c : Nat) (q : List sensor_reading_t) :
    List BufOp → List sensor_reading_t × List sensor_reading_t
  | [] => (q, [])
  | BufOp.write r :: ops => model_trace c (model_push c q r) ops
  | BufOp.read :: ops =>
    ((model_trace c q.tail ops).1,
     q.head?.toList ++ (model_trace c q.tail ops).2)

lemma toList_length (b : ring_buffer_t) : (toList b).length = b.count := by
  simp [toList]

lemma wrap_mod (cap x : Nat) (h : x < cap) :
    (if cap ≤ x + 1 then 0 else x + 1) = (x + 1) % cap := by
  rcases Nat.lt_or_ge (x + 1) cap with h1 | h1
  · rw [if_neg (by omega), Nat.mod_eq_of_lt h1]
  · have hx : x + 1 = cap := by omega
    rw [if_pos (by omega), hx, Nat.mod_self]

lemma getD_set_ne (l : List sensor_reading_t) {i j : Nat}
    (a d : sensor_reading_t) (h : i ≠ j) :
    (l.set i a).getD j d = l.getD j d := by
  simp [List.getD_eq_getElem?_getD, List.getElem?_set_ne h]

lemma getD_set_self (l : List sensor_reading_t) {i : Nat}
    (a d : sensor_reading_t) (h : i < l.length) :
    (l.set i a).getD i d = a := by
  simp [List.getD_eq_getElem?_getD, List.getElem?_set, h]

lemma buf_inv_create (c : Nat) (hc : 1 ≤ c) : buf_inv (buffer_create c) := by
  refine ⟨hc, ?_, ?_, ?_, ?_, ?_, ?_⟩ <;>
    simp [buffer_create] <;> omega

lemma toList_create (c : Nat) : toList (buffer_create c) = [] := by
  simp [toList, buffer_create]

lemma write_step_full (b : ring_buffer_t) (r : sensor_reading_t)
    (h : b.count = b.capacity) :
    write_step b r =
      ({ b with status := { b.status with is_full := true, overflows := true } },
       some false) := by
  simp [write_step, h]

lemma read_step_empty (b : ring_buffer_t) (h : b.count = 0) :
    read_step b =
      ({ b with status := { b.status with is_empty := true } }, none, false) := by
  simp [read_step, h]

lemma write_step_capacity (b : ring_buffer_t) (r : sensor_reading_t) :
    (write_step b r).1.capacity = b.capacity := by
  unfold write_step
  split <;> rfl

lemma read_step_capacity (b : ring_buffer_t) :
    (read_step b).1.capacity = b.capacity := by
  unfold read_step
  split <;> rfl

lemma buf_inv_write (b : ring_buffer_t) (r : sensor_reading_t)
    (hb : buf_inv b) : buf_inv (write_step b r).1 := by
  obtain ⟨h1, h2, h3, h4, h5, h6, h7⟩ := hb
  by_cases hfull : b.count = b.capacity
  · rw [write_step_full b r hfull]
    exact ⟨h1, h2, h3, h4, h5, by simpa [hfull] using h6, by simp [hfull]⟩
  · have hlt : b.count < b.capacity := lt_of_le_of_ne h3 hfull
    have hhead : b.head < b.capacity := h5 ▸ Nat.mod_lt _ (by omega)
    refine ⟨?_, ?_, ?_, ?_, ?_, ?_, ?_⟩ <;>
      simp only [write_step, if_neg hfull]
    · exact h1
    · simpa using h2
    · simpa using hlt
    · exact h4
    · show (if b.capacity ≤ b.head + 1 then 0 else b.head + 1) =
        (b.tail + (b.count + 1)) % b.capacity
      rw [wrap_mod _ _ hhead, h5, Nat.mod_add_mod, ← Nat.add_assoc]
    · simp

lemma buf_inv_read (b : ring_buffer_t) (hb : buf_inv b) :
    buf_inv (read_step b).1 := by
  obtain ⟨h1, h2, h3, h4, h5, h6, h7⟩ := hb
  by_cases hempty : b.count = 0
  · rw [read_step_empty b hempty]
    exact ⟨h1, h2, h3, h4, h5, by simp [hempty], by simpa [hempty] using h7⟩
  · have hpos : 0 < b.count := Nat.pos_of_ne_zero hempty
    refine ⟨?_, ?_, ?_, ?_, ?_, ?_, ?_⟩ <;>
      simp only [read_step, if_neg hempty]
    · exact h1
    · exact h2
    · simpa using le_trans (Nat.sub_le _ _) h3
    · show (if b.capacity ≤ b.tail + 1 then 0 else b.tail + 1) < b.capacity
      rw [wrap_mod _ _ h4]
      exact Nat.mod_lt _ (by omega)
    · show b.head =
        ((if b.capacity ≤ b.tail + 1 then 0 else b.tail + 1) + (b.count - 1)) %
          b.capacity
      rw [wrap_mod _ _ h4, Nat.mod_add_mod, h5]
      congr 1
      omega
    · have hne : ¬(b.count - 1 = b.capacity) := by omega
      simp [hne]

lemma ws1_buffer (b : ring_buffer_t) (r : sensor_reading_t)
    (h : ¬b.count = b.capacity) :
    (write_step b r).1.buffer = b.buffer.set b.head r := by
  simp [write_step, h]

lemma ws1_head (b : ring_buffer_t) (r : sensor_reading_t)
    (h : ¬b.count = b.capacity) :
    (write_step b r).1.head =
      if b.capacity ≤ b.head + 1 then 0 else b.head + 1 := by
  simp [write_step, h]

lemma ws1_tail (b : ring_buffer_t) (r : sensor_reading_t) :
    (write_step b r).1.tail = b.tail := by
  unfold write_step
  split <;> rfl

lemma ws1_count (b : ring_buffer_t) (r : sensor_reading_t)
    (h : ¬b.count = b.capacity) :
    (write_step b r).1.count = b.count + 1 := by
  simp [write_step, h]

lemma ws1_overflows (b : ring_buffer_t) (r : sensor_reading_t) :
    (write_step b r).1.status.overflows =
      (b.status.overflows || decide (b.count = b.capacity)) := by
  unfold write_step
  split <;> simp_all

lemma rs1_buffer (b : ring_buffer_t) : (read_step b).1.buffer = b.buffer := by
  unfold read_step
  split <;> rfl

lemma rs1_head (b : ring_buffer_t) : (read_step b).1.head = b.head := by
  unfold read_step
  split <;> rfl

lemma rs1_tail (b : ring_buffer_t) (h : ¬b.count = 0) :
    (read_step b).1.tail =
      if b.capacity ≤ b.tail + 1 then 0 else b.tail + 1 := by
  simp [read_step, h]

lemma rs1_count (b : ring_buffer_t) (h : ¬b.count = 0) :
    (read_step b).1.count = b.count - 1 := by
  simp [read_step, h]

lemma rs1_overflows (b : ring_buffer_t) :
    (read_step b).1.status.overflows = b.status.overflows := by
  unfold read_step
  split <;> rfl

lemma rs2_out (b : ring_buffer_t) (h : ¬b.count = 0) :
    (read_step b).2.1 = some (b.buffer.getD b.tail zero_reading) := by
  simp [read_step, h]

lemma idx_ne {cap t i n : Nat} (hi : i < n) (hn : n < cap) :
    (t + i) % cap ≠ (t + n) % cap := by
  intro heq
  have hm : i % cap = n % cap := Nat.ModEq.add_left_cancel (Nat.ModEq.refl t) heq
  rw [Nat.mod_eq_of_lt (by omega), Nat.mod_eq_of_lt hn] at hm
  omega

lemma toList_write_full (b : ring_buffer_t) (r : sensor_reading_t)
    (h : b.count = b.capacity) :
    toList (write_step b r).1 = toList b := by
  rw [write_step_full b r h]
  rfl

lemma toList_write_ok (b : ring_buffer_t) (r : sensor_reading_t)
    (hb : buf_inv b) (h : ¬b.count = b.capacity) :
    toList (write_step b r).1 = toList b ++ [r] := by
  obtain ⟨h1, h2, h3, h4, h5, h6, h7⟩ := hb
  have hlt : b.count < b.capacity := lt_of_le_of_ne h3 h
  have hhead : b.head < b.buffer.length := by
    rw [h2, h5]
    exact Nat.mod_lt _ (by omega)
  unfold toList
  rw [ws1_buffer b r h, ws1_tail, ws1_count b r h, write_step_capacity,
      List.range_succ, List.map_append]
  congr 1
  · apply List.map_congr_left
    intro i hi
    have hi' : i < b.count := List.mem_range.mp hi
    have hne : b.head ≠ (b.tail + i) % b.capacity := by
      rw [h5]
      exact (idx_ne hi' hlt).symm
    exact getD_set_ne _ _ _ hne
  · simp only [List.map_cons, List.map_nil]
    congr 1
    rw [← h5]
    exact getD_set_self _ _ _ hhead

lemma read_out (b : ring_buffer_t) (hb : buf_inv b) :
    (read_step b).2.1 = (toList b).head? := by
  by_cases h : b.count = 0
  · rw [read_step_empty b h]
    simp [toList, h]
  · obtain ⟨h1, h2, h3, h4, h5, h6, h7⟩ := hb
    obtain ⟨m, hm⟩ : ∃ m, b.count = m + 1 := ⟨b.count - 1, by omega⟩
    rw [rs2_out b h]
    unfold toList
    rw [hm, List.range_succ_eq_map]
    simp [Nat.mod_eq_of_lt h4]

lemma toList_read (b : ring_buffer_t) (hb : buf_inv b) :
    toList (read_step b).1 = (toList b).tail := by
  by_cases h : b.count = 0
  · rw [read_step_empty b h]
    simp [toList, h]
  · obtain ⟨h1, h2, h3, h4, h5, h6, h7⟩ := hb
    obtain ⟨m, hm⟩ : ∃ m, b.count = m + 1 := ⟨b.count - 1, by omega⟩
    unfold toList
    rw [rs1_buffer, rs1_tail b h, rs1_count b h, read_step_capacity, hm,
        wrap_mod _ _ h4, List.range_succ_eq_map]
    simp only [Nat.add_sub_cancel, List.map_cons, List.tail_cons, List.map_map]
    apply List.map_congr_left
    intro i hi
    congr 1
    rw [Nat.mod_add_mod]
    congr 1
    omega

lemma reachable_inv {b : ring_buffer_t} (h : Reachable b) : buf_inv b := by
  induction h with
  | create c hc => exact buf_inv_create c hc
  | write b r _ ih => exact buf_inv_write b r ih
  | read b _ ih => exact buf_inv_read b ih

/-- Simulation: running any operation sequence on the buffer produces, through
the abstraction `toList`, exactly the run of the bounded FIFO model, with the
same successful-read outputs. -/
lemma sim (ops : List BufOp) : ∀ b : ring_buffer_t, buf_inv b →
    (run_trace b ops).2 = (model_trace b.capacity (toList b) ops).2 ∧
    toList (run_trace b ops).1 = (model_trace b.capacity (toList b) ops).1 ∧
    buf_inv (run_trace b ops).1 ∧
    (run_trace b ops).1.capacity = b.capacity := by
  induction ops with
  | nil => exact fun b hb => ⟨rfl, rfl, hb, rfl⟩
  | cons op ops ih =>
    intro b hb
    cases op with
    | write r =>
      have hb' := buf_inv_write b r hb
      have hcap := write_step_capacity b r
      have hq : toList (write_step b r).1 = model_push b.capacity (toList b) r := by
        by_cases h : b.count = b.capacity
        · rw [toList_write_full b r h, model_push,
              if_pos (by rw [toList_length, h])]
        · rw [toList_write_ok b r hb h, model_push,
              if_neg (by rw [toList_length]; exact h)]
      obtain ⟨o1, o2, o3, o4⟩ := ih (write_step b r).1 hb'
      refine ⟨?_, ?_, ?_, ?_⟩ <;> simp only [run_trace, model_trace]
      · rw [o1, hcap, hq]
      · rw [o2, hcap, hq]
      · exact o3
      · rw [o4, hcap]
    | read =>
      have hb' := buf_inv_read b hb
      have hcap := read_step_capacity b
      obtain ⟨o1, o2, o3, o4⟩ := ih (read_step b).1 hb'
      refine ⟨?_, ?_, ?_, ?_⟩ <;> simp only [run_trace, model_trace]
      · rw [read_out b hb, o1, hcap, toList_read b hb]
      · rw [o2, hcap, toList_read b hb]
      · exact o3
      · rw [o4, hcap]

lemma model_writes (c : Nat) (rs : List sensor_reading_t) :
    ∀ q : List sensor_reading_t, q.length + rs.length ≤ c →
    model_trace c q (rs.map BufOp.write) = (q ++ rs, []) := by
  induction rs with
  | nil => intro q _; simp [model_trace]
  | cons r rs ih =>
    intro q h
    simp only [List.map_cons, model_trace, model_push]
    rw [if_neg (by simp at h ⊢; omega)]
    rw [ih (q ++ [r]) (by simp at h ⊢; omega)]
    simp

lemma model_reads (c : Nat) (n : Nat) :
    ∀ q : List sensor_reading_t,
    model_trace c q (List.replicate n BufOp.read) = (q.drop n, q.take n) := by
  induction n with
  | zero => intro q; simp [model_trace]
  | succ n ih =>
    intro q
    simp only [List.replicate_succ, model_trace]
    rw [ih q.tail]
    cases q with
    | nil => simp
    | cons x xs => simp

lemma model_trace_append (c : Nat) (ops1 ops2 : List BufOp) :
    ∀ q : List sensor_reading_t,
    model_trace c q (ops1 ++ ops2) =
      ((model_trace c (model_trace c q ops1).1 ops2).1,
       (model_trace c q ops1).2 ++ (model_trace c (model_trace c q ops1).1 ops2).2) := by
  induction ops1 with
  | nil => intro q; simp [model_trace]
  | cons op ops ih =>
    intro q
    cases op <;> simp [model_trace, ih]

lemma overflows_preserved (ops : List BufOp) :
    ∀ b : ring_buffer_t, b.status.overflows = true →
    (run_trace b ops).1.status.overflows = true := by
  induction ops with
  | nil => exact fun b h => h
  | cons op ops ih =>
    intro b h
    cases op with
    | write r =>
      exact ih _ (by rw [ws1_overflows, h]; simp)
    | read =>
      exact ih _ (by rw [rs1_overflows]; exact h)

/-- Sample readings used in the concrete witnesses. -/
def r_a : sensor_reading_t := ⟨1000, 0, 20⟩

def r_b : sensor_reading_t := ⟨1001, 1, 21⟩

/-- A full buffer of capacity 1, obtained by one successful write. -/
def full1 : ring_buffer_t := (write_step (buffer_create 1) r_a).1

/-!
Claim theorems.
-/

/-- Claim C1: pushing `r1..rn` (n ≤ capacity) into a fresh buffer and then
popping n times returns exactly `r1..rn` in order; in general, over any
interleaving of pushes and pops from any reachable state, the successful
`buffer_read` outputs are exactly those of the bounded FIFO model queue on
the held elements (`toList`), i.e. every successful read yields the
earliest-pushed currently-held reading, across arbitrarily many
wrap-arounds. -/
theorem fifo_order_correct :
    (∀ (c : Nat) (rs : List sensor_reading_t), 1 ≤ c → rs.length ≤ c →
      (run_trace (buffer_create c)
        (rs.map BufOp.write ++ List.replicate rs.length BufOp.read)).2 = rs) ∧
    (∀ (b : ring_buffer_t) (ops : List BufOp), Reachable b →
      (run_trace b ops).2 = (model_trace b.capacity (toList b) ops).2 ∧
      toList (run_trace b ops).1 = (model_trace b.capacity (toList b) ops).1) := by
  constructor
  · intro c rs hc hlen
    obtain ⟨o1, _, _, _⟩ :=
      sim (rs.map BufOp.write ++ List.replicate rs.length BufOp.read)
        (buffer_create c) (buf_inv_create c hc)
    rw [o1]
    show (model_trace c (toList (buffer_create c)) _).2 = rs
    rw [toList_create, model_trace_append,
        model_writes c rs [] (by simpa using hlen), model_reads]
    simp
  · intro b ops hb
    obtain ⟨o1, o2, _, _⟩ := sim ops b (reachable_inv hb)
    exact ⟨o1, o2⟩

theorem fifo_order_correct_witness :
    (run_trace (buffer_create 3)
      ([r_a, r_b].map BufOp.write ++
        List.replicate ([r_a, r_b] : List sensor_reading_t).length BufOp.read)).2 =
      [r_a, r_b] :=
  fifo_order_correct.1 3 [r_a, r_b] (by decide) (by decide)

/-- Claim C2 (code bug): on the success path `buffer_write` has no `return`
statement (the `bool` function falls off its end), so the value it returns
for each of the first `capacity` writes is unspecified (`none` in the model)
rather than `true` as the header documentation and `main.c` expect; the
`(capacity+1)`-th write does return `false` and leaves `count == capacity`.
Evaluated here on a fresh buffer of capacity 1. -/
theorem write_success_return_unspecified :
    (buffer_write (some (buffer_create 1)) (some r_a)).2 = none ∧
    (buffer_write (some (buffer_create 1)) (some r_a)).1 =
      some (write_step (buffer_create 1) r_a).1 ∧
    (write_step (buffer_create 1) r_a).1.count = 1 ∧
    (buffer_write (some full1) (some r_b)).2 = some false ∧
    (write_step full1 r_b).1.count = 1 := by
  decide

/-- Claim C3: with `count == capacity`, `buffer_write` returns the
`BufferFull` failure (`false`), sets the sticky `overflows` flag (and the
`is_full` flag), and leaves the stored elements, `head`, `tail`, `count` and
the `is_empty` flag unchanged — no unread data is overwritten. -/
theorem write_full_rejects (b : ring_buffer_t) (r : sensor_reading_t)
    (h : b.count = b.capacity) :
    (buffer_write (some b) (some r)).2 = some false ∧
    (buffer_write (some b) (some r)).1 = some (write_step b r).1 ∧
    (write_step b r).1.buffer = b.buffer ∧
    (write_step b r).1.head = b.head ∧
    (write_step b r).1.tail = b.tail ∧
    (write_step b r).1.count = b.count ∧
    (write_step b r).1.status.is_empty = b.status.is_empty ∧
    (write_step b r).1.status.is_full = true ∧
    (write_step b r).1.status.overflows = true := by
  have hw := write_step_full b r h
  exact ⟨by simp [buffer_write, hw], rfl, by rw [hw], by rw [hw], by rw [hw],
         by rw [hw], by rw [hw], by rw [hw], by rw [hw]⟩

theorem write_full_rejects_witness :
    (buffer_write (some full1) (some r_b)).2 = some false ∧
    (buffer_write (some full1) (some r_b)).1 = some (write_step full1 r_b).1 ∧
    (write_step full1 r_b).1.buffer = full1.buffer ∧
    (write_step full1 r_b).1.head = full1.head ∧
    (write_step full1 r_b).1.tail = full1.tail ∧
    (write_step full1 r_b).1.count = full1.count ∧
    (write_step full1 r_b).1.status.is_empty = full1.status.is_empty ∧
    (write_step full1 r_b).1.status.is_full = true ∧
    (write_step full1 r_b).1.status.overflows = true :=
  write_full_rejects full1 r_b (by decide)

/-- Claim C4: in every state reachable from construction (capacity ≥ 1) by
the public operations, `count ≤ capacity`, both cursors index slots in
`[0, capacity)`, the buffer reports full exactly when `count == capacity`,
and reports empty exactly when `count == 0` (both through the status flags
and through the query functions). -/
theorem reachable_state_invariants (b : ring_buffer_t) (h : Reachable b) :
    b.count ≤ b.capacity ∧
    b.head < b.capacity ∧
    b.tail < b.capacity ∧
    (b.status.is_full = true ↔ b.count = b.capacity) ∧
    (b.status.is_empty = true ↔ b.count = 0) ∧
    (Buffer_is_full (some b) = true ↔ b.count = b.capacity) ∧
    (buffer_is_empty (some b) = true ↔ b.count = 0) := by
  obtain ⟨h1, h2, h3, h4, h5, h6, h7⟩ := reachable_inv h
  refine ⟨h3, ?_, h4, ?_, ?_, ?_, ?_⟩
  · rw [h5]
    exact Nat.mod_lt _ (by omega)
  · rw [h7]
    simp
  · rw [h6]
    simp
  · simp [Buffer_is_full]
  · simp [buffer_is_empty]

theorem reachable_state_invariants_witness :
    full1.count ≤ full1.capacity ∧
    full1.head < full1.capacity ∧
    full1.tail < full1.capacity ∧
    (full1.status.is_full = true ↔ full1.count = full1.capacity) ∧
    (full1.status.is_empty = true ↔ full1.count = 0) ∧
    (Buffer_is_full (some full1) = true ↔ full1.count = full1.capacity) ∧
    (buffer_is_empty (some full1) = true ↔ full1.count = 0) :=
  reachable_state_invariants full1
    (Reachable.write (buffer_create 1) r_a (Reachable.create 1 (by decide)))

/-- Claim C5: the overflow flag is sticky.  A `buffer_write` on a full
buffer sets it; once set, it survives every further sequence of
`buffer_write`/`buffer_read` calls (successful or not) as reported by
`buffer_get_status`; a fresh construction has it clear.  No operation other
than `buffer_clear` resets it (and `buffer_clear` never completes, see
`buffer_clear`). -/
theorem overflow_flag_sticky :
    (∀ (b : ring_buffer_t) (r : sensor_reading_t), b.count = b.capacity →
       (write_step b r).1.status.overflows = true) ∧
    (∀ (b : ring_buffer_t) (ops : List BufOp), b.status.overflows = true →
       (buffer_get_status (some (run_trace b ops).1)).overflows = true) ∧
    (∀ c : Nat, (buffer_get_status (some (buffer_create c))).overflows = false) := by
  refine ⟨?_, ?_, ?_⟩
  · intro b r h
    rw [ws1_overflows]
    simp [h]
  · intro b ops h
    exact overflows_preserved ops b h
  · intro c
    rfl

theorem overflow_flag_sticky_witness :
    (buffer_get_status
      (some (run_trace (write_step full1 r_b).1
              [BufOp.read, BufOp.write r_a, BufOp.read]).1)).overflows = true :=
  overflow_flag_sticky.2.1 (write_step full1 r_b).1
    [BufOp.read, BufOp.write r_a, BufOp.read] (by decide)

/-- Claim C6: with `count == 0`, `buffer_read` fails (`false`), stores
nothing, and leaves the state unchanged apart from (re-)asserting the
`is_empty` flag — which is already set in every reachable empty state, so on
every reachable state (newly constructed or just emptied) the state,
and in particular `buffer_count`, is literally unchanged. -/
theorem read_empty_no_effect :
    (∀ b : ring_buffer_t, b.count = 0 →
       buffer_read (some b) false =
         (some { b with status := { b.status with is_empty := true } },
          none, false)) ∧
    (∀ b : ring_buffer_t, Reachable b → b.count = 0 →
       buffer_read (some b) false = (some b, none, false) ∧
       buffer_count (buffer_read (some b) false).1 = buffer_count (some b)) := by
  constructor
  · intro b h
    simp [buffer_read, read_step_empty b h]
  · intro b hr h
    have h6 : b.status.is_empty = decide (b.count = 0) :=
      (reachable_inv hr).2.2.2.2.2.1
    have he : b.status.is_empty = true := by
      rw [h6, h]
      rfl
    have hs : ({ b.status with is_empty := true } : buffer_status_t) = b.status := by
      rw [← he]
    have hb : ({ b with status := { b.status with is_empty := true } } :
        ring_buffer_t) = b := by
      rw [hs]
    have hread : buffer_read (some b) false = (some b, none, false) := by
      rw [show buffer_read (some b) false =
            (some { b with status := { b.status with is_empty := true } },
             none, false) from by simp [buffer_read, read_step_empty b h], hb]
    exact ⟨hread, by rw [hread]⟩

theorem read_empty_no_effect_witness :
    buffer_read (some (buffer_create 2)) false =
      (some (buffer_create 2), none, false) ∧
    buffer_count (buffer_read (some (buffer_create 2)) false).1 =
      buffer_count (some (buffer_create 2)) :=
  read_empty_no_effect.2 (buffer_create 2) (Reachable.create 2 (by decide))
    (by decide)

/-- Claim C7: `buffer_peek` fails exactly when `count == 0`, which is also
exactly when `buffer_read` fails (given a non-NULL buffer and output), and on
success it returns the same oldest reading `buffer_read` would deliver,
without removing it.  `buffer_peek` takes the buffer through a `const`
pointer and is embedded as a function with no state result, so it mutates no
buffer state and repeated peeks with no intervening push/pop are calls of the
same function on the same state: they return the identical reading. -/
theorem peek_read_only (b : ring_buffer_t) :
    (buffer_peek (some b) false = none ↔ b.count = 0) ∧
    ((buffer_read (some b) false).2.2 = false ↔ b.count = 0) ∧
    buffer_peek (some b) false = (buffer_read (some b) false).2.1 := by
  refine ⟨?_, ?_, ?_⟩
  · by_cases h : b.count = 0 <;> simp [buffer_peek, buffer_is_empty, h]
  · by_cases h : b.count = 0
    · simp [buffer_read, read_step_empty b h, h]
    · simp [buffer_read, read_step, h]
  · by_cases h : b.count = 0
    · simp [buffer_peek, buffer_is_empty, buffer_read, read_step_empty b h, h]
    · simp [buffer_peek, buffer_is_empty, buffer_read, rs2_out b h, h]

/-- Claim C8 (code bug): `buffer_clear` never succeeds.  Its guard
`if (buf = NULL) return;` assigns NULL instead of comparing, so the function
goes on to dereference the null pointer on every call and never reaches the
reset of `head`, `tail`, `count` and the flags that its own documentation
promises.  Evaluated here on a freshly created buffer (and on NULL). -/
theorem clear_has_no_defined_result :
    buffer_clear (some (buffer_create 5)) = none ∧
    buffer_clear (some full1) = none ∧
    buffer_clear none = none :=
  ⟨rfl, rfl, rfl⟩

/-- Claim C9: for capacity ≥ 1, `buffer_create` yields exactly `capacity`
zero-initialized slots, `head = tail = count = 0`, a clear overflow flag,
and reports empty and not full. -/
theorem create_initial_state (c : Nat) (hc : 1 ≤ c) :
    (buffer_create c).buffer = List.replicate c zero_reading ∧
    (buffer_create c).buffer.length = c ∧
    (buffer_create c).head = 0 ∧
    (buffer_create c).tail = 0 ∧
    (buffer_create c).count = 0 ∧
    (buffer_create c).status.overflows = false ∧
    (buffer_create c).status.is_empty = true ∧
    (buffer_create c).status.is_full = false ∧
    buffer_is_empty (some (buffer_create c)) = true ∧
    Buffer_is_full (some (buffer_create c)) = false := by
  refine ⟨rfl, by simp [buffer_create], rfl, rfl, rfl, rfl, rfl, rfl, rfl, ?_⟩
  simp [Buffer_is_full, buffer_create]
  omega

theorem create_initial_state_witness :
    (buffer_create 5).buffer = List.replicate 5 zero_reading ∧
    (buffer_create 5).buffer.length = 5 ∧
    (buffer_create 5).head = 0 ∧
    (buffer_create 5).tail = 0 ∧
    (buffer_create 5).count = 0 ∧
    (buffer_create 5).status.overflows = false ∧
    (buffer_create 5).status.is_empty = true ∧
    (buffer_create 5).status.is_full = false ∧
    buffer_is_empty (some (buffer_create 5)) = true ∧
    Buffer_is_full (some (buffer_create 5)) = false :=
  create_initial_state 5 (by decide)

/-- Claim C10: every public operation tolerates NULL pointers without
effect: `buffer_write`, `buffer_read` and `buffer_peek` fail on a NULL
buffer or NULL reading/output pointer and change nothing,
`buffer_is_empty(NULL)` reports empty, `buffer_count(NULL)` is 0, and
`buffer_get_status(NULL)` is the all-zero status. -/
theorem null_pointers_tolerated (b : Option ring_buffer_t)
    (r : Option sensor_reading_t) (onull : Bool) :
    buffer_write none r = (none, some false) ∧
    buffer_write b none = (b, some false) ∧
    buffer_read none onull = (none, none, false) ∧
    buffer_read b true = (b, none, false) ∧
    buffer_peek none onull = none ∧
    buffer_peek b true = none ∧
    buffer_is_empty none = true ∧
    buffer_count none = 0 ∧
    buffer_get_status none =
      { is_full := false, is_empty := false, overflows := false, reserved := 0 } := by
  refine ⟨?_, ?_, rfl, ?_, rfl, ?_, rfl, rfl, rfl⟩
  · cases r <;> rfl
  · cases b <;> rfl
  · cases b <;> rfl
  · cases b <;> simp [buffer_peek]
